import Mathlib

/-!
Shallow embedding of the scoring engine of `app/main.py` (landing-page
scoring prototype): the text extractor and heuristic scorer (`_mock_score`),
the orchestrator (`llm_score_page`) with its LLM-response normalization and
error fallback, and the comparator (`compare_pages`).

Modelling conventions:
* Python strings are `List Char` / `String`; `str.lower()` is modelled on
  ASCII letters (`lcase`), which covers every pattern the code matches.
* Python `float` arithmetic on these small rational values is modelled by
  `ℚ`; `round(x, 2)` is round-half-to-even at two decimals (`round2`).
* The external LLM client together with `json.loads` is modelled by an
  `LLMOutcome`: either an exception (carrying the exception class name) or
  a parsed payload.  A parsed payload whose `scores` entries are not
  objects with an integer `score` field would itself raise inside the
  `try` block, i.e. it is subsumed by the exception outcome, so payload
  score entries are modelled directly as `CritResult` values.
* Module configuration (`USE_MOCK`, `OPENAI_API_KEY` truthiness) is an
  explicit `Config` record.
-/

namespace Scoring

/- The Batteries rational operations are `@[irreducible]`; make them
semireducible in this file so that concrete values evaluate with `decide`. -/
attribute [local semireducible] Rat.mul Rat.add Rat.sub Rat.inv

/-- ASCII lowercasing of one character, modelling `str.lower()` on the
ASCII range (all patterns matched by the code are ASCII). -/
def lcase (c : Char) : Char :=
  match c with
  | 'A' => 'a' | 'B' => 'b' | 'C' => 'c' | 'D' => 'd' | 'E' => 'e'
  | 'F' => 'f' | 'G' => 'g' | 'H' => 'h' | 'I' => 'i' | 'J' => 'j'
  | 'K' => 'k' | 'L' => 'l' | 'M' => 'm' | 'N' => 'n' | 'O' => 'o'
  | 'P' => 'p' | 'Q' => 'q' | 'R' => 'r' | 'S' => 's' | 'T' => 't'
  | 'U' => 'u' | 'V' => 'v' | 'W' => 'w' | 'X' => 'x' | 'Y' => 'y'
  | 'Z' => 'z' | c => c

/-- Whether the list contains a `'>'` character. -/
def hasGt : List Char → Bool
  | [] => false
  | c :: t => if c = '>' then true else hasGt t

/-- Given the characters following a `'<'`, whether the regex `<[^>]+>`
matches here: at least one non-`'>'` character followed by `'>'`, i.e. the
first `'>'` of the remainder is not in the first position. -/
def startsTag : List Char → Bool
  | [] => false
  | c :: t => if c = '>' then false else hasGt t

/-- One left-to-right pass of `re.sub(r"<[^>]+>", " ", s)` (leftmost,
non-overlapping matches, each replaced by a single space).  The `Bool`
records whether we are currently inside a matched tag span. -/
def stripAux : Bool → List Char → List Char
  | _, [] => []
  | true, c :: t => if c = '>' then stripAux false t else stripAux true t
  | false, c :: t =>
    if c = '<' then
      if startsTag t then ' ' :: stripAux true t else c :: stripAux false t
    else c :: stripAux false t

/-- `re.sub(r"<[^>]+>", " ", s)`. -/
def stripTags (l : List Char) : List Char := stripAux false l

/-- ASCII whitespace recognised by Python `str.split()`. -/
def isPySpace (c : Char) : Bool :=
  c = ' ' || c = '\t' || c = '\n' || c = '\x0b' || c = '\x0c' || c = '\r'

/-- Number of whitespace-separated tokens, i.e. `len(s.split())`.  The
`Bool` records whether the previous character was inside a token. -/
def countTokAux : Bool → List Char → Nat
  | _, [] => 0
  | inTok, c :: t =>
    if isPySpace c then countTokAux false t
    else (if inTok then 0 else 1) + countTokAux true t

/-- `len(s.split())`. -/
def countTokens (l : List Char) : Nat := countTokAux false l

/-- List-prefix test on characters. -/
def pfxOf : List Char → List Char → Bool
  | [], _ => true
  | _ :: _, [] => false
  | a :: as, b :: bs => if a = b then pfxOf as bs else false

/-- Python substring test `needle in hay`. -/
def strIn (needle : List Char) : List Char → Bool
  | [] => needle.isEmpty
  | c :: t => pfxOf needle (c :: t) || strIn needle t

/-- Split a list at its first `'>'`: returns the characters before it and
the characters after it. -/
def splitAtGt : List Char → Option (List Char × List Char)
  | [] => none
  | c :: t =>
    if c = '>' then some ([], t)
    else (splitAtGt t).map (fun p => (c :: p.1, p.2))

/-- Existence of a match of `openT ++ [^>]* ++ ">"` followed (anywhere
later) by `closeT`; this is `re.search(openT + "[^>]*>.*?" + closeT, s)`
with `re.S` (the lazy `.*?` only asks for a later occurrence of `closeT`).
The search is performed on an already-lowercased list, modelling `re.I`. -/
def tagSearch (openT closeT : List Char) : List Char → Bool
  | [] => false
  | c :: t =>
    (pfxOf openT (c :: t) &&
      (match splitAtGt (List.drop openT.length (c :: t)) with
       | some p => strIn closeT p.2
       | none => false))
    || tagSearch openT closeT t

/-- Existence of a match of `<[^>]+>` anywhere in the list (the input
"contains a tag span"). -/
def hasTagSpan : List Char → Bool
  | [] => false
  | c :: t => (if c = '<' then startsTag t else false) || hasTagSpan t

/-- The CTA keyword set of `_mock_score`. -/
def ctaKeywords : List (List Char) :=
  ["get started".toList, "start free".toList, "sign up".toList,
   "contact".toList, "try free".toList]

/-- The trust keyword set of `_mock_score`. -/
def trustKeywords : List (List Char) :=
  ["trusted by".toList, "testimonials".toList, "review".toList,
   "reviews".toList, "privacy".toList, "secure".toList, "https".toList,
   "iso".toList, "gdpr".toList, "clients".toList, "partners".toList]

/-- The signal surface extracted from the raw HTML at the top of
`_mock_score` (the spec's "Text Extractor"). -/
structure PageSignals where
  txt : List Char
  have_h1 : Bool
  have_title : Bool
  have_cta : Bool
  trust_kw : Nat
  words : Nat
deriving DecidableEq

/-- Lines 69–74 of `app/main.py`:
`txt = re.sub(r"<[^>]+>", " ", html or "").lower()` and the `have_h1`,
`have_title`, `have_btn`, `trust_kw`, `words` signals. -/
def extractSignals (html : String) : PageSignals :=
  let raw := html.toList
  let low := raw.map lcase
  let txt := (stripTags raw).map lcase
  { txt := txt
    have_h1 := tagSearch ['<', 'h', '1'] ['<', '/', 'h', '1', '>'] low
    have_title := tagSearch ['<', 't', 'i', 't', 'l', 'e']
      ['<', '/', 't', 'i', 't', 'l', 'e', '>'] low
    have_cta := strIn "<button".toList low
      || ctaKeywords.any (fun k => strIn k txt)
    trust_kw := trustKeywords.countP (fun k => strIn k txt)
    words := countTokens txt }

/-- `max(1, min(10, s))`. -/
def clamp (s : Int) : Int := max 1 (min 10 s)

/-- One per-criterion entry `{"score": ..., "feedback": ...}`. -/
structure CritResult where
  score : Int
  feedback : String
deriving DecidableEq

/-- The result shape `{"scores": ..., "overall": ..., "notes": ...}`.
`scores` is an insertion-ordered dict, modelled as an association list
with unique keys. -/
structure ScoreResult where
  scores : List (String × CritResult)
  overall : ℚ
  notes : String
deriving DecidableEq

/-- Python dict lookup `d[k]` / membership `k in d` (first match). -/
def alookup (k : String) : List (String × CritResult) → Option CritResult
  | [] => none
  | (k₂, v) :: t => if k₂ = k then some v else alookup k t

/-- `for c in criteria: scores.setdefault(c, d)` — appends `(c, d)` at the
end for each criterion not already present. -/
def setDefaults (d : CritResult) :
    List (String × CritResult) → List String → List (String × CritResult)
  | scores, [] => scores
  | scores, c :: cs =>
    setDefaults d
      (if (alookup c scores).isSome then scores else scores ++ [(c, d)]) cs

/-- `sum(v["score"] for v in scores.values())`. -/
def sumScores (scores : List (String × CritResult)) : Int :=
  (scores.map (fun p => p.2.score)).sum

/-- Round half to even to the nearest integer (Python `round`'s tie
behaviour; these values are exactly representable small rationals). -/
def rhe (q : ℚ) : Int :=
  if Int.fract q < 1/2 then ⌊q⌋
  else if 1/2 < Int.fract q then ⌊q⌋ + 1
  else if ⌊q⌋ % 2 = 0 then ⌊q⌋ else ⌊q⌋ + 1

/-- Python `round(x, 2)`. -/
def round2 (q : ℚ) : ℚ := (rhe (q * 100) : ℚ) / 100

/-- `DEFAULT_CRITERIA = ["clarity", "credibility", "cta"]`. -/
def DEFAULT_CRITERIA : List String := ["clarity", "credibility", "cta"]

/-- The `"clarity"` entry computed by `_mock_score`. -/
def clarityEntry (sig : PageSignals) : String × CritResult :=
  ("clarity",
    { score := clamp (4 + (if sig.have_h1 then 3 else 0)
        + (if sig.have_title then 2 else 0)
        + (if 50 ≤ sig.words ∧ sig.words ≤ 400 then 1 else 0))
      feedback := (if sig.have_h1 then "Clear headline." else "Add a clear H1.")
        ++ (if 400 < sig.words then " Keep copy concise." else "") })

/-- The `"credibility"` entry computed by `_mock_score`. -/
def credibilityEntry (sig : PageSignals) : String × CritResult :=
  ("credibility",
    { score := clamp (3 + min 7 (sig.trust_kw : Int))
      feedback :=
        let parts : List String :=
          (if sig.trust_kw = 0 then ["Add testimonials/trust badges."] else [])
          ++ (if strIn "https".toList sig.txt then []
              else ["Show security/privacy info."])
        if parts.isEmpty then "Good trust signals."
        else String.intercalate " " parts })

/-- The `"cta"` entry computed by `_mock_score`. -/
def ctaEntry (sig : PageSignals) : String × CritResult :=
  ("cta",
    { score := clamp (4 + (if sig.have_cta then 4 else 0)
        + (if sig.have_h1 then 2 else 0))
      feedback := if sig.have_cta then "CTA visible." else "Add a prominent CTA." })

/-- The three conditional inserts of `_mock_score`, in source order. -/
def baseScores (sig : PageSignals) (criteria : List String) :
    List (String × CritResult) :=
  (if "clarity" ∈ criteria then [clarityEntry sig] else [])
  ++ (if "credibility" ∈ criteria then [credibilityEntry sig] else [])
  ++ (if "cta" ∈ criteria then [ctaEntry sig] else [])

/-- `_mock_score(html, criteria)` (the heuristic scorer).  Note: every
caller inside the module passes a non-empty `criteria`, so the division by
`len(scores)` is never a division by zero in the source; `ℚ` makes it
total here. -/
def mock_score (html : String) (criteria : List String) : ScoreResult :=
  let sig := extractSignals html
  let scores := setDefaults ⟨5, "OK"⟩ (baseScores sig criteria) criteria
  { scores := scores
    overall := round2 ((sumScores scores : ℚ) / (scores.length : ℚ))
    notes := "Mock mode: heuristic scoring" }

/-- A successfully `json.loads`-parsed LLM payload of the canonical shape.
`overall = none` models an absent field, `some none` a present but
non-numeric field, `some (some q)` a numeric field. -/
structure RawPayload where
  scores : Option (List (String × CritResult))
  overall : Option (Option ℚ)
  notes : Option String

/-- `round(sum(vals)/len(vals), 2) if vals else 0.0` over the score values
of a scores mapping. -/
def meanOverall (scores : List (String × CritResult)) : ℚ :=
  if scores.isEmpty then 0
  else round2 ((sumScores scores : ℚ) / (scores.length : ℚ))

/-- Lines 153–159 of `app/main.py` (the spec's "Response Normalizer"):
`data.setdefault("scores", {})`, the per-criterion
`setdefault(c, {"score": 0, "feedback": ""})` loop, the `overall`
recomputation when absent or non-numeric, and `data.setdefault("notes", "")`. -/
def normalizeLLM (criteria : List String) (p : RawPayload) : ScoreResult :=
  let scores := setDefaults ⟨0, ""⟩ (p.scores.getD []) criteria
  { scores := scores
    overall :=
      match p.overall with
      | some (some q) => q
      | _ => meanOverall scores
    notes := p.notes.getD "" }

/-- Module configuration: `USE_MOCK` and the truthiness of
`OPENAI_API_KEY`. -/
structure Config where
  useMock : Bool
  hasKey : Bool

/-- Outcome of the `try` block's external part: either any exception
(carrying `e.__class__.__name__`) from the client call or from
`json.loads`, or a parsed payload. -/
inductive LLMOutcome where
  | err (className : String)
  | ok (payload : RawPayload)

/-- `criteria or DEFAULT_CRITERIA` (Python truthiness: `None` and `[]`
both fall back to the default list). -/
def orDefault : Option (List String) → List String
  | none => DEFAULT_CRITERIA
  | some [] => DEFAULT_CRITERIA
  | some (c :: cs) => c :: cs

/-- `llm_score_page(html, url, criteria)` (the spec's "Scoring
Orchestrator").  The `url` argument only feeds the prompt builder, so it
does not influence the result.  On any exception the result is the
heuristic result with its `notes` field rewritten. -/
def llm_score_page (cfg : Config) (out : LLMOutcome) (html : String)
    (url : Option String) (criteria : Option (List String)) : ScoreResult :=
  let crit := orDefault criteria
  if cfg.useMock || !cfg.hasKey then
    mock_score html crit
  else
    match out with
    | .ok p => normalizeLLM crit p
    | .err name =>
      { mock_score html crit with
          notes := "Mock fallback due to error: " ++ name }

/-- `before["scores"][c]["score"] if c in before["scores"] else
before["overall"]`. -/
def scoreOr (r : ScoreResult) (c : String) : ℚ :=
  match alookup c r.scores with
  | some cr => (cr.score : ℚ)
  | none => r.overall

/-- `round((a - b), 2)` for one key of the delta loop. -/
def deltaStep (before after : ScoreResult) (c : String) : ℚ :=
  round2 (scoreOr after c - scoreOr before c)

/-- Python dict assignment `d[k] = v`: replace in place if the key exists,
else append. -/
def dictInsert : List (String × ℚ) → String → ℚ → List (String × ℚ)
  | [], k, v => [(k, v)]
  | (k₂, v₂) :: t, k, v =>
    if k₂ = k then (k₂, v) :: t else (k₂, v₂) :: dictInsert t k v

/-- Dict lookup in the delta mapping. -/
def dlookup (k : String) : List (String × ℚ) → Option ℚ
  | [] => none
  | (k₂, v) :: t => if k₂ = k then some v else dlookup k t

/-- The `for c in criteria + ["overall"]` delta loop of `compare_pages`. -/
def deltaMap (before after : ScoreResult) (keys : List String) :
    List (String × ℚ) :=
  keys.foldl (fun m c => dictInsert m c (deltaStep before after c)) []

/-- The `/compare` response shape. -/
structure CompareResult where
  before : ScoreResult
  after : ScoreResult
  delta : List (String × ℚ)
deriving DecidableEq

/-- `compare_pages(req)` (the spec's "Comparator"): two independent
orchestrator runs plus the delta mapping. -/
def compare_pages (cfg : Config) (outB outA : LLMOutcome)
    (before_html after_html : String) (url : Option String)
    (criteria : Option (List String)) : CompareResult :=
  let crit := orDefault criteria
  let before := llm_score_page cfg outB before_html url (some crit)
  let after := llm_score_page cfg outA after_html url (some crit)
  { before := before
    after := after
    delta := deltaMap before after (crit ++ ["overall"]) }

/-- Every score of the result's scores mapping lies in `[1, 10]`. -/
def scoresInRange (r : ScoreResult) : Prop :=
  ∀ p ∈ r.scores, 1 ≤ p.2.score ∧ p.2.score ≤ 10

instance (r : ScoreResult) : Decidable (scoresInRange r) := by
  unfold scoresInRange; infer_instance

/-! ### Association-list and `setdefault` lemmas -/

theorem alookup_append_some (c : String) (s t : List (String × CritResult))
    (h : (alookup c s).isSome) : alookup c (s ++ t) = alookup c s := by
  induction s with
  | nil => simp [alookup] at h
  | cons p s ih =>
    obtain ⟨k₂, v⟩ := p
    by_cases hk : k₂ = c
    · simp [alookup, hk]
    · simp only [alookup, hk, if_false, List.cons_append, if_neg] at h ⊢
      exact ih h

theorem alookup_append_none (c : String) (s t : List (String × CritResult))
    (h : alookup c s = none) : alookup c (s ++ t) = alookup c t := by
  induction s with
  | nil => simp
  | cons p s ih =>
    obtain ⟨k₂, v⟩ := p
    by_cases hk : k₂ = c
    · simp [alookup, hk] at h
    · simp only [alookup, hk, if_false, List.cons_append, if_neg] at h ⊢
      exact ih h

theorem setDefaults_lookup_some (d : CritResult) (c : String) (v : CritResult)
    (cs : List String) :
    ∀ scores, alookup c scores = some v →
      alookup c (setDefaults d scores cs) = some v := by
  induction cs with
  | nil => intro scores h; simpa [setDefaults] using h
  | cons c₂ cs ih =>
    intro scores h
    simp only [setDefaults]
    split
    · exact ih _ h
    · refine ih _ ?_
      rw [alookup_append_some c scores [(c₂, d)] (by simp [h])]
      exact h

theorem setDefaults_isSome_mono (d : CritResult) (c : String) (cs : List String)
    (scores : List (String × CritResult)) (h : (alookup c scores).isSome) :
    (alookup c (setDefaults d scores cs)).isSome := by
  obtain ⟨v, hv⟩ := Option.isSome_iff_exists.mp h
  rw [setDefaults_lookup_some d c v cs scores hv]
  rfl

theorem setDefaults_isSome_of_mem (d : CritResult) (c : String)
    (cs : List String) :
    ∀ scores, c ∈ cs → (alookup c (setDefaults d scores cs)).isSome := by
  induction cs with
  | nil => intro scores h; cases h
  | cons c₂ cs ih =>
    intro scores hmem
    simp only [setDefaults]
    rcases List.mem_cons.mp hmem with rfl | h
    · apply setDefaults_isSome_mono
      split
      next hs => exact hs
      next hs =>
        have hn : alookup c scores = none := by
          cases hx : alookup c scores <;> simp [hx] at hs ⊢
        rw [alookup_append_none c scores _ hn]
        simp [alookup]
    · exact ih _ h

theorem setDefaults_lookup_of_none (d : CritResult) (c : String)
    (cs : List String) :
    ∀ scores, alookup c scores = none → c ∈ cs →
      alookup c (setDefaults d scores cs) = some d := by
  induction cs with
  | nil => intro scores _ h; cases h
  | cons c₂ cs ih =>
    intro scores hn hmem
    simp only [setDefaults]
    by_cases hc : c = c₂
    · subst hc
      rw [if_neg (by simp [hn])]
      apply setDefaults_lookup_some
      rw [alookup_append_none c scores _ hn]
      simp [alookup]
    · have hne : c₂ ≠ c := fun h => hc h.symm
      rcases List.mem_cons.mp hmem with h | h
      · exact absurd h hc
      · split
        · exact ih _ hn h
        · refine ih _ ?_ h
          rw [alookup_append_none c scores _ hn]
          simp [alookup, hne]

theorem setDefaults_mem (d : CritResult) (cs : List String) :
    ∀ scores p, p ∈ setDefaults d scores cs → p ∈ scores ∨ p.2 = d := by
  induction cs with
  | nil => intro scores p h; exact Or.inl h
  | cons c₂ cs ih =>
    intro scores p h
    simp only [setDefaults] at h
    rcases ih _ _ h with h₂ | h₂
    · split at h₂
      · exact Or.inl h₂
      · rcases List.mem_append.mp h₂ with h₃ | h₃
        · exact Or.inl h₃
        · simp only [List.mem_singleton] at h₃
          right; rw [h₃]
    · exact Or.inr h₂

theorem alookup_isSome_append (c : String) (s t : List (String × CritResult))
    (h : (alookup c (s ++ t)).isSome) :
    (alookup c s).isSome ∨ (alookup c t).isSome := by
  cases hx : alookup c s with
  | some v => left; rfl
  | none =>
    right
    rw [alookup_append_none c s t hx] at h
    exact h

theorem setDefaults_isSome_inv (d : CritResult) (c : String) (cs : List String) :
    ∀ scores, (alookup c (setDefaults d scores cs)).isSome →
      (alookup c scores).isSome ∨ c ∈ cs := by
  induction cs with
  | nil => intro scores h; exact Or.inl h
  | cons c₂ cs ih =>
    intro scores h
    simp only [setDefaults] at h
    rcases ih _ h with h₂ | h₂
    · split at h₂
      · exact Or.inl h₂
      · rcases alookup_isSome_append c scores _ h₂ with h₃ | h₃
        · exact Or.inl h₃
        · right
          by_cases hc : c₂ = c
          · simp [hc, List.mem_cons]
          · simp [alookup, hc] at h₃
    · exact Or.inr (List.mem_cons_of_mem _ h₂)

theorem baseScores_isSome_mem (sig : PageSignals) (criteria : List String)
    (c : String) (h : (alookup c (baseScores sig criteria)).isSome) :
    c ∈ criteria := by
  simp only [baseScores] at h
  rcases alookup_isSome_append c _ _ h with h | h
  · rcases alookup_isSome_append c _ _ h with h | h
    · split at h
      next hmem =>
        simp only [clarityEntry, alookup] at h
        split at h
        next he => rw [← he]; exact hmem
        next => simp [alookup] at h
      next => simp [alookup] at h
    · split at h
      next hmem =>
        simp only [credibilityEntry, alookup] at h
        split at h
        next he => rw [← he]; exact hmem
        next => simp [alookup] at h
      next => simp [alookup] at h
  · split at h
    next hmem =>
      simp only [ctaEntry, alookup] at h
      split at h
      next he => rw [← he]; exact hmem
      next => simp [alookup] at h
    next => simp [alookup] at h

/-! ### Heuristic-scorer range lemmas -/

theorem clamp_range (s : Int) : 1 ≤ clamp s ∧ clamp s ≤ 10 :=
  ⟨le_max_left 1 _, max_le (by norm_num) (min_le_left 10 s)⟩

theorem mock_scores_range (html : String) (criteria : List String) :
    scoresInRange (mock_score html criteria) := by
  intro p hp
  simp only [mock_score] at hp
  rcases setDefaults_mem _ _ _ _ hp with h | h
  · simp only [baseScores] at h
    rcases List.mem_append.mp h with h | h
    · rcases List.mem_append.mp h with h | h
      · split at h
        · simp only [List.mem_singleton] at h
          rw [h]; exact clamp_range _
        · cases h
      · split at h
        · simp only [List.mem_singleton] at h
          rw [h]; exact clamp_range _
        · cases h
    · split at h
      · simp only [List.mem_singleton] at h
        rw [h]; exact clamp_range _
      · cases h
  · rw [h]; exact ⟨by norm_num, by norm_num⟩

/-! ### Orchestrator path lemmas -/

theorem llm_score_page_heuristic (cfg : Config) (out : LLMOutcome)
    (html : String) (url : Option String) (criteria : Option (List String))
    (h : cfg.useMock = true ∨ cfg.hasKey = false) :
    llm_score_page cfg out html url criteria
      = mock_score html (orDefault criteria) := by
  have hc : (cfg.useMock || !cfg.hasKey) = true := by
    rcases h with h | h <;> simp [h]
  simp [llm_score_page, hc]

/-! ### Delta-loop lemmas -/

theorem dlookup_dictInsert_self (k : String) (v : ℚ) :
    ∀ m, dlookup k (dictInsert m k v) = some v := by
  intro m
  induction m with
  | nil => simp [dictInsert, dlookup]
  | cons p t ih =>
    obtain ⟨k₂, v₂⟩ := p
    by_cases h : k₂ = k
    · simp [dictInsert, dlookup, h]
    · simp [dictInsert, dlookup, h, ih]

theorem dlookup_dictInsert_ne (k₂ k : String) (v : ℚ) (h : k₂ ≠ k) :
    ∀ m, dlookup k₂ (dictInsert m k v) = dlookup k₂ m := by
  intro m
  induction m with
  | nil => simp [dictInsert, dlookup, Ne.symm h]
  | cons p t ih =>
    obtain ⟨k₃, v₃⟩ := p
    by_cases h₃ : k₃ = k
    · subst h₃
      simp [dictInsert, dlookup, Ne.symm h]
    · simp only [dictInsert, h₃, if_false, if_neg]
      by_cases h₄ : k₃ = k₂
      · simp [dlookup, h₄]
      · simp [dlookup, h₄, ih]

theorem deltaFold_lookup (b a : ScoreResult) (c : String) (keys : List String) :
    ∀ m, dlookup c (keys.foldl (fun m₂ k => dictInsert m₂ k (deltaStep b a k)) m)
      = if c ∈ keys then some (deltaStep b a c) else dlookup c m := by
  induction keys with
  | nil => intro m; simp
  | cons k ks ih =>
    intro m
    simp only [List.foldl_cons]
    rw [ih]
    by_cases hc : c ∈ ks
    · simp [hc, List.mem_cons]
    · by_cases hk : c = k
      · subst hk
        simp [hc, dlookup_dictInsert_self]
      · simp [hc, hk, dlookup_dictInsert_ne c k _ hk]

theorem deltaMap_lookup (b a : ScoreResult) (keys : List String) (c : String) :
    dlookup c (deltaMap b a keys)
      = if c ∈ keys then some (deltaStep b a c) else none := by
  unfold deltaMap
  rw [deltaFold_lookup]
  simp [dlookup]

/-! ### Rounding lemmas -/

theorem rhe_neg (q : ℚ) : rhe (-q) = -rhe q := by
  rcases eq_or_ne (Int.fract q) 0 with h0 | h0
  · have hf : Int.fract q = q - ⌊q⌋ := rfl
    have hq : q = (⌊q⌋ : ℚ) := by rw [hf] at h0; linarith
    have h1 : ⌊-q⌋ = -⌊q⌋ := by
      conv_lhs => rw [hq]
      rw [← Int.cast_neg, Int.floor_intCast]
    have h2 : Int.fract (-q) = 0 := by
      have hf₂ : Int.fract (-q) = -q - ⌊-q⌋ := rfl
      rw [hf₂, h1]
      push_cast
      rw [hf] at h0
      linarith
    unfold rhe
    rw [h0, h2, h1]
    norm_num
  · have hf : Int.fract q = q - ⌊q⌋ := rfl
    have hpos : 0 < Int.fract q := lt_of_le_of_ne (Int.fract_nonneg q) (Ne.symm h0)
    have hlt1 : Int.fract q < 1 := Int.fract_lt_one q
    have hq1 : (⌊q⌋ : ℚ) < q := by rw [hf] at hpos; linarith
    have hq2 : q < (⌊q⌋ : ℚ) + 1 := by rw [hf] at hlt1; linarith
    have hfl : ⌊-q⌋ = -⌊q⌋ - 1 := by
      rw [Int.floor_eq_iff]
      constructor
      · push_cast; linarith
      · push_cast; linarith
    have hfr : Int.fract (-q) = 1 - Int.fract q := by
      have hf₂ : Int.fract (-q) = -q - ⌊-q⌋ := rfl
      rw [hf₂, hfl, hf]
      push_cast
      ring
    unfold rhe
    rw [hfr, hfl]
    rcases lt_trichotomy (Int.fract q) (1/2) with hc | hc | hc
    · rw [if_neg (by linarith : ¬(1 - Int.fract q < 1/2)),
          if_pos (by linarith : (1:ℚ)/2 < 1 - Int.fract q), if_pos hc]
      omega
    · have c1 : ¬(1 - Int.fract q < 1/2) := by rw [hc]; norm_num
      have c2 : ¬((1:ℚ)/2 < 1 - Int.fract q) := by rw [hc]; norm_num
      have c3 : ¬(Int.fract q < 1/2) := by rw [hc]; norm_num
      have c4 : ¬((1:ℚ)/2 < Int.fract q) := by rw [hc]; norm_num
      rw [if_neg c1, if_neg c2, if_neg c3, if_neg c4]
      by_cases hp : ⌊q⌋ % 2 = 0
      · rw [if_pos hp, if_neg (by omega : ¬((-⌊q⌋ - 1) % 2 = 0))]
        omega
      · rw [if_neg hp, if_pos (by omega : (-⌊q⌋ - 1) % 2 = 0)]
        omega
    · rw [if_pos (by linarith : 1 - Int.fract q < 1/2),
          if_neg (by linarith : ¬(Int.fract q < 1/2)), if_pos hc]
      omega

theorem round2_neg (x : ℚ) : round2 (-x) = -round2 x := by
  unfold round2
  have h : -x * 100 = -(x * 100) := by ring
  rw [h, rhe_neg]
  push_cast
  ring

/-! ### Tag-span lemmas (for extraction on tag-free HTML) -/

theorem splitAtGt_hasGt (p : List Char × List Char) :
    ∀ l, splitAtGt l = some p → hasGt l = true := by
  intro l
  induction l generalizing p with
  | nil => intro h; simp [splitAtGt] at h
  | cons c t ih =>
    intro h
    by_cases hc : c = '>'
    · simp [hasGt, hc]
    · simp only [splitAtGt, hc, if_false, if_neg] at h
      simp only [hasGt, hc, if_false, if_neg]
      cases hx : splitAtGt t with
      | none => rw [hx] at h; simp at h
      | some p₂ => exact ih p₂ hx

theorem hasGt_of_drop (n : Nat) :
    ∀ l, hasGt (List.drop n l) = true → hasGt l = true := by
  induction n with
  | zero => intro l h; simpa using h
  | succ n ih =>
    intro l h
    cases l with
    | nil => simp [hasGt] at h
    | cons c t =>
      simp only [List.drop_succ_cons] at h
      have ht := ih t h
      unfold hasGt
      by_cases hc : c = '>' <;> simp [hc, ht]

theorem tagSearch_hasTagSpan (c₀ : Char) (os closeT : List Char)
    (ho : c₀ ≠ '>') :
    ∀ l, tagSearch ('<' :: c₀ :: os) closeT l = true → hasTagSpan l = true := by
  intro l
  induction l with
  | nil => intro h; simp [tagSearch] at h
  | cons c t ih =>
    intro h
    simp only [tagSearch, Bool.or_eq_true] at h
    rcases h with h | h
    · rw [Bool.and_eq_true] at h
      obtain ⟨hpfx, hmatch⟩ := h
      simp only [pfxOf] at hpfx
      split at hpfx
      case isTrue hc =>
        cases t with
        | nil => simp [pfxOf] at hpfx
        | cons c₁ t₁ =>
          simp only [pfxOf] at hpfx
          split at hpfx
          case isTrue hc₁ =>
            simp only [List.length_cons, List.drop_succ_cons] at hmatch
            have hgt : hasGt t₁ = true := by
              cases hsp : splitAtGt (List.drop os.length t₁) with
              | none => rw [hsp] at hmatch; simp at hmatch
              | some p => exact hasGt_of_drop os.length t₁ (splitAtGt_hasGt p _ hsp)
            have hst : startsTag (c₁ :: t₁) = true := by
              simp only [startsTag]
              rw [if_neg (by rw [← hc₁]; exact ho)]
              exact hgt
            have hc₂ : c = '<' := hc.symm
            simp [hasTagSpan, hc₂, hst]
          case isFalse => simp at hpfx
      case isFalse => simp at hpfx
    · have ht := ih h
      simp [hasTagSpan, ht]

theorem lcase_eq_gt (c : Char) : (lcase c = '>') ↔ (c = '>') := by
  unfold lcase
  split <;> first | rfl | decide

theorem lcase_eq_lt (c : Char) : (lcase c = '<') ↔ (c = '<') := by
  unfold lcase
  split <;> first | rfl | decide

theorem hasGt_map (l : List Char) : hasGt (l.map lcase) = hasGt l := by
  induction l with
  | nil => rfl
  | cons c t ih =>
    simp only [List.map_cons]
    unfold hasGt
    by_cases hc : c = '>'
    · rw [if_pos ((lcase_eq_gt c).mpr hc), if_pos hc]
    · rw [if_neg (fun h => hc ((lcase_eq_gt c).mp h)), if_neg hc, ih]

theorem startsTag_map (l : List Char) : startsTag (l.map lcase) = startsTag l := by
  cases l with
  | nil => rfl
  | cons c t =>
    simp only [List.map_cons]
    simp only [startsTag]
    by_cases hc : c = '>'
    · rw [if_pos ((lcase_eq_gt c).mpr hc), if_pos hc]
    · rw [if_neg (fun h => hc ((lcase_eq_gt c).mp h)), if_neg hc, hasGt_map]

theorem hasTagSpan_map (l : List Char) :
    hasTagSpan (l.map lcase) = hasTagSpan l := by
  induction l with
  | nil => rfl
  | cons c t ih =>
    simp only [List.map_cons]
    unfold hasTagSpan
    rw [ih, startsTag_map]
    by_cases hc : c = '<'
    · rw [if_pos ((lcase_eq_lt c).mpr hc), if_pos hc]
    · rw [if_neg (fun h => hc ((lcase_eq_lt c).mp h)), if_neg hc]

theorem stripAux_id (l : List Char) (h : hasTagSpan l = false) :
    stripAux false l = l := by
  induction l with
  | nil => rfl
  | cons c t ih =>
    unfold hasTagSpan at h
    rw [Bool.or_eq_false_iff] at h
    obtain ⟨h1, h2⟩ := h
    unfold stripAux
    by_cases hc : c = '<'
    · rw [if_pos hc]
      rw [if_pos hc] at h1
      rw [h1]
      simp only [Bool.false_eq_true, if_false]
      rw [ih h2]
    · rw [if_neg hc, ih h2]

/-! ### Mock-path key-set and comparator lemmas -/

theorem mock_score_lookup_iff (html : String) (criteria : List String)
    (c : String) :
    (alookup c (mock_score html criteria).scores).isSome ↔ c ∈ criteria := by
  constructor
  · intro h
    simp only [mock_score] at h
    rcases setDefaults_isSome_inv _ c criteria _ h with h | h
    · exact baseScores_isSome_mem _ criteria c h
    · exact h
  · intro h
    simp only [mock_score]
    exact setDefaults_isSome_of_mem _ c criteria _ h

theorem orDefault_idem (criteria : Option (List String)) :
    orDefault (some (orDefault criteria)) = orDefault criteria := by
  cases criteria with
  | none => rfl
  | some l => cases l <;> rfl

theorem compare_delta_heuristic (cfg : Config) (outB outA : LLMOutcome)
    (bh ah : String) (url : Option String) (criteria : Option (List String))
    (h : cfg.useMock = true ∨ cfg.hasKey = false) :
    (compare_pages cfg outB outA bh ah url criteria).delta
      = deltaMap (mock_score bh (orDefault criteria))
          (mock_score ah (orDefault criteria))
          (orDefault criteria ++ ["overall"]) := by
  simp only [compare_pages]
  rw [llm_score_page_heuristic cfg outB bh url _ h,
      llm_score_page_heuristic cfg outA ah url _ h]
  simp only [orDefault_idem]

/-! ## Claims -/

/-- C1: for every html, url and criteria list, if the LLM client raises any
exception during the LLM path, `llm_score_page` catches it and returns
exactly the heuristic scorer's result for that html and criteria, except
that the `notes` field is rewritten to record the fallback and the class
name of the triggering error; no error propagates to the caller. -/
theorem C1_fallback_is_heuristic (cfg : Config) (name html : String)
    (url : Option String) (criteria : Option (List String))
    (h1 : cfg.useMock = false) (h2 : cfg.hasKey = true) :
    llm_score_page cfg (.err name) html url criteria
      = { mock_score html (orDefault criteria) with
            notes := "Mock fallback due to error: " ++ name } := by
  simp [llm_score_page, h1, h2]

theorem C1_fallback_is_heuristic_witness :
    (⟨false, true⟩ : Config).useMock = false ∧
    llm_score_page ⟨false, true⟩ (.err "TimeoutError") "" none none
      = { mock_score "" (orDefault none) with
            notes := "Mock fallback due to error: " ++ "TimeoutError" } :=
  ⟨rfl, C1_fallback_is_heuristic ⟨false, true⟩ "TimeoutError" "" none none rfl rfl⟩

/-- C2 (amended): on every code path the returned scores mapping contains an
entry for every requested criterion, where the requested criteria default to
`["clarity", "credibility", "cta"]` when the caller supplies none or an empty
list; moreover on the heuristic and fallback paths the mapping contains
exactly the requested criteria.  (The normalized-LLM path may retain extra
keys supplied by the model, which is why "exactly" does not hold there.) -/
theorem C2_scores_cover_requested (cfg : Config) (out : LLMOutcome)
    (html : String) (url : Option String) (criteria : Option (List String)) :
    (∀ c ∈ orDefault criteria,
      (alookup c (llm_score_page cfg out html url criteria).scores).isSome)
    ∧ ((cfg.useMock = true ∨ cfg.hasKey = false ∨ (∃ n, out = .err n)) →
        ∀ c, (alookup c (llm_score_page cfg out html url criteria).scores).isSome
          ↔ c ∈ orDefault criteria) := by
  constructor
  · intro c hc
    simp only [llm_score_page]
    split
    · simp only [mock_score]
      exact setDefaults_isSome_of_mem _ c _ _ hc
    · split
      · simp only [normalizeLLM]
        exact setDefaults_isSome_of_mem _ c _ _ hc
      · simp only [mock_score]
        exact setDefaults_isSome_of_mem _ c _ _ hc
  · intro hpath c
    by_cases hm : cfg.useMock = true ∨ cfg.hasKey = false
    · rw [llm_score_page_heuristic cfg out html url criteria hm]
      exact mock_score_lookup_iff html _ c
    · push_neg at hm
      obtain ⟨hm1, hm2⟩ := hm
      have h1 : cfg.useMock = false := by revert hm1; cases cfg.useMock <;> simp
      have h2 : cfg.hasKey = true := by revert hm2; cases cfg.hasKey <;> simp
      rcases hpath with h | h | ⟨n, rfl⟩
      · exact absurd h hm1
      · exact absurd h hm2
      · simp only [llm_score_page, h1, h2, Bool.not_true, Bool.or_false]
        simp only [Bool.false_eq_true, if_false]
        exact mock_score_lookup_iff html _ c

theorem C2_scores_cover_requested_witness :
    "clarity" ∈ orDefault none ∧
    (alookup "clarity"
      (llm_score_page ⟨true, false⟩ (.err "") "" none none).scores).isSome :=
  ⟨by decide,
    (C2_scores_cover_requested ⟨true, false⟩ (.err "") "" none none).1
      "clarity" (by decide)⟩

/-- C2 counterexample: with the LLM path returning a payload containing the
extra key `"extra"`, the returned scores mapping has an entry that is not a
requested criterion, so it does not contain "exactly" the requested
criteria. -/
theorem C2_scores_cover_requested_cex :
    (alookup "extra"
      (llm_score_page ⟨false, true⟩
        (.ok ⟨some [("extra", ⟨7, "x"⟩)], some (some 5), some "n"⟩)
        "" none none).scores).isSome = true
    ∧ "extra" ∉ orDefault none := by
  decide

/-- C3 (amended): on the heuristic path and on the fallback path, every
per-criterion score of the returned scores mapping is an integer in `[1, 10]`.
(On the successfully-normalized LLM path, criteria the model omitted are
filled with score 0, so the claim's "every code path" fails there.) -/
theorem C3_scores_in_range (cfg : Config) (out : LLMOutcome) (html : String)
    (url : Option String) (criteria : Option (List String))
    (h : cfg.useMock = true ∨ cfg.hasKey = false ∨ (∃ n, out = .err n)) :
    scoresInRange (llm_score_page cfg out html url criteria) := by
  by_cases hm : cfg.useMock = true ∨ cfg.hasKey = false
  · rw [llm_score_page_heuristic cfg out html url criteria hm]
    exact mock_scores_range _ _
  · push_neg at hm
    obtain ⟨hm1, hm2⟩ := hm
    have h1 : cfg.useMock = false := by revert hm1; cases cfg.useMock <;> simp
    have h2 : cfg.hasKey = true := by revert hm2; cases cfg.hasKey <;> simp
    rcases h with h | h | ⟨n, rfl⟩
    · exact absurd h hm1
    · exact absurd h hm2
    · simp only [llm_score_page, h1, h2, Bool.not_true, Bool.or_false]
      simp only [Bool.false_eq_true, if_false]
      intro p hp
      exact mock_scores_range html (orDefault criteria) p hp

theorem C3_scores_in_range_witness :
    ((⟨true, true⟩ : Config).useMock = true ∨ (⟨true, true⟩ : Config).hasKey = false
      ∨ (∃ n, LLMOutcome.err "x" = LLMOutcome.err n)) ∧
    scoresInRange (llm_score_page ⟨true, true⟩ (.err "x") "" none none) :=
  ⟨Or.inl rfl,
    C3_scores_in_range ⟨true, true⟩ (.err "x") "" none none (Or.inl rfl)⟩

/-- C3 counterexample: on the normalized LLM path, a payload with an empty
scores mapping yields inserted defaults with score 0 for every requested
criterion, which is outside `[1, 10]`. -/
theorem C3_scores_in_range_cex :
    ¬ scoresInRange
        (llm_score_page ⟨false, true⟩ (.ok ⟨some [], none, none⟩) "" none none) := by
  decide

/-- C4: the response normalizer inserts `{score: 0, feedback: ""}` for each
requested criterion missing from the payload's scores mapping; if the
payload's `overall` field is absent or non-numeric it is recomputed as the
mean of the per-criterion scores present after that insertion (0.0 when the
scores mapping is empty) rounded to 2 decimals, and otherwise the payload's
`overall` is kept verbatim; an absent `notes` defaults to the empty
string. -/
theorem C4_normalizer (criteria : List String) (p : RawPayload) :
    (∀ c ∈ criteria, alookup c (p.scores.getD []) = none →
        alookup c (normalizeLLM criteria p).scores = some ⟨0, ""⟩)
    ∧ (∀ q, p.overall = some (some q) → (normalizeLLM criteria p).overall = q)
    ∧ ((∀ q, p.overall ≠ some (some q)) →
        (normalizeLLM criteria p).overall
          = meanOverall (normalizeLLM criteria p).scores)
    ∧ (p.notes = none → (normalizeLLM criteria p).notes = "") := by
  refine ⟨?_, ?_, ?_, ?_⟩
  · intro c hc hnone
    simp only [normalizeLLM]
    exact setDefaults_lookup_of_none _ c criteria _ hnone hc
  · intro q hq
    simp [normalizeLLM, hq]
  · intro hq
    cases ho : p.overall with
    | none => simp [normalizeLLM, ho]
    | some o =>
      cases o with
      | none => simp [normalizeLLM, ho]
      | some q => exact absurd ho (hq q)
  · intro hn
    simp [normalizeLLM, hn]

theorem C4_normalizer_witness :
    ("clarity" ∈ DEFAULT_CRITERIA
      ∧ alookup "clarity" ((⟨some [], none, none⟩ : RawPayload).scores.getD []) = none
      ∧ alookup "clarity"
          (normalizeLLM DEFAULT_CRITERIA ⟨some [], none, none⟩).scores
        = some ⟨0, ""⟩)
    ∧ (normalizeLLM DEFAULT_CRITERIA ⟨some [], some (some 7), none⟩).overall = 7
    ∧ (normalizeLLM DEFAULT_CRITERIA ⟨some [], none, none⟩).overall
        = meanOverall (normalizeLLM DEFAULT_CRITERIA ⟨some [], none, none⟩).scores
    ∧ (normalizeLLM DEFAULT_CRITERIA ⟨some [], none, none⟩).notes = "" := by
  refine ⟨⟨by decide, by decide, ?_⟩, ?_, ?_, ?_⟩
  · exact (C4_normalizer DEFAULT_CRITERIA ⟨some [], none, none⟩).1 "clarity"
      (by decide) (by decide)
  · exact (C4_normalizer DEFAULT_CRITERIA ⟨some [], some (some 7), none⟩).2.1 7 rfl
  · exact (C4_normalizer DEFAULT_CRITERIA ⟨some [], none, none⟩).2.2.1
      (fun q h => Option.noConfusion h)
  · exact (C4_normalizer DEFAULT_CRITERIA ⟨some [], none, none⟩).2.2.2 rfl

/-- C5 (amended): the delta mapping has
`delta[c] = round(after.scores[c].score − before.scores[c].score, 2)` for
every requested criterion `c`, and
`delta["overall"] = round(after.overall − before.overall, 2)` provided the
literal key `"overall"` is not present in either run's scores mapping (in
particular whenever `"overall"` is not a requested criterion and both runs
resolve heuristically); when `"overall"` is a requested criterion its
per-criterion entry shadows the aggregate difference. -/
theorem C5_delta_formula (cfg : Config) (outB outA : LLMOutcome)
    (bh ah : String) (url : Option String) (criteria : Option (List String))
    (hb : alookup "overall"
        (compare_pages cfg outB outA bh ah url criteria).before.scores = none)
    (ha : alookup "overall"
        (compare_pages cfg outB outA bh ah url criteria).after.scores = none) :
    (∀ c ∈ orDefault criteria, ∀ sb sa,
        alookup c (compare_pages cfg outB outA bh ah url criteria).before.scores
          = some sb →
        alookup c (compare_pages cfg outB outA bh ah url criteria).after.scores
          = some sa →
        dlookup c (compare_pages cfg outB outA bh ah url criteria).delta
          = some (round2 ((sa.score : ℚ) - (sb.score : ℚ))))
    ∧ dlookup "overall" (compare_pages cfg outB outA bh ah url criteria).delta
        = some (round2
            ((compare_pages cfg outB outA bh ah url criteria).after.overall
              - (compare_pages cfg outB outA bh ah url criteria).before.overall)) := by
  have hd : (compare_pages cfg outB outA bh ah url criteria).delta
      = deltaMap (compare_pages cfg outB outA bh ah url criteria).before
          (compare_pages cfg outB outA bh ah url criteria).after
          (orDefault criteria ++ ["overall"]) := rfl
  constructor
  · intro c hc sb sa hsb hsa
    rw [hd, deltaMap_lookup, if_pos (List.mem_append_left _ hc)]
    have e1 : scoreOr (compare_pages cfg outB outA bh ah url criteria).after c
        = (sa.score : ℚ) := by unfold scoreOr; rw [hsa]
    have e2 : scoreOr (compare_pages cfg outB outA bh ah url criteria).before c
        = (sb.score : ℚ) := by unfold scoreOr; rw [hsb]
    unfold deltaStep
    rw [e1, e2]
  · rw [hd, deltaMap_lookup,
        if_pos (List.mem_append_right _ (List.mem_singleton.mpr rfl))]
    have e1 : scoreOr (compare_pages cfg outB outA bh ah url criteria).after "overall"
        = (compare_pages cfg outB outA bh ah url criteria).after.overall := by
      unfold scoreOr; rw [ha]
    have e2 : scoreOr (compare_pages cfg outB outA bh ah url criteria).before "overall"
        = (compare_pages cfg outB outA bh ah url criteria).before.overall := by
      unfold scoreOr; rw [hb]
    unfold deltaStep
    rw [e1, e2]

theorem C5_delta_formula_witness :
    alookup "overall"
        (compare_pages ⟨true, true⟩ (.err "") (.err "") "" "<h1>a</h1>" none
          (some ["clarity"])).before.scores = none ∧
    dlookup "overall"
        (compare_pages ⟨true, true⟩ (.err "") (.err "") "" "<h1>a</h1>" none
          (some ["clarity"])).delta
      = some (round2
          ((compare_pages ⟨true, true⟩ (.err "") (.err "") "" "<h1>a</h1>" none
              (some ["clarity"])).after.overall
            - (compare_pages ⟨true, true⟩ (.err "") (.err "") "" "<h1>a</h1>" none
                (some ["clarity"])).before.overall)) :=
  ⟨by decide,
    (C5_delta_formula ⟨true, true⟩ (.err "") (.err "") "" "<h1>a</h1>" none
      (some ["clarity"]) (by decide) (by decide)).2⟩

/-- C5 counterexample: with requested criteria `["clarity", "overall"]` in
heuristic mode, `delta["overall"]` is the per-criterion difference of the
criterion named `"overall"` (here 0), not the rounded difference of the two
aggregate `overall` fields (here 3/2), so the claim's `"overall"` clause
fails for this criteria list. -/
theorem C5_delta_formula_cex :
    ¬ (dlookup "overall"
        (compare_pages ⟨true, true⟩ (.err "") (.err "") "" "<h1>a</h1>" none
          (some ["clarity", "overall"])).delta
      = some (round2
          ((compare_pages ⟨true, true⟩ (.err "") (.err "") "" "<h1>a</h1>" none
              (some ["clarity", "overall"])).after.overall
            - (compare_pages ⟨true, true⟩ (.err "") (.err "") "" "<h1>a</h1>" none
                (some ["clarity", "overall"])).before.overall))) := by
  decide

/-- C6: in heuristic mode, swapping which HTML is "before" negates every
entry of the delta mapping: for all HTML pairs, any url and any criteria
list, `compare(X, Y).delta[k] = -compare(Y, X).delta[k]` for every key `k`
of the delta mapping. -/
theorem C6_delta_antisymmetry (cfg : Config) (oB oA oB₂ oA₂ : LLMOutcome)
    (X Y : String) (url url₂ : Option String) (criteria : Option (List String))
    (k : String) (v : ℚ) (hm : cfg.useMock = true)
    (hv : dlookup k (compare_pages cfg oB oA X Y url criteria).delta = some v) :
    dlookup k (compare_pages cfg oB₂ oA₂ Y X url₂ criteria).delta
      = some (-v) := by
  rw [compare_delta_heuristic cfg oB oA X Y url criteria (Or.inl hm)] at hv
  rw [compare_delta_heuristic cfg oB₂ oA₂ Y X url₂ criteria (Or.inl hm)]
  rw [deltaMap_lookup] at hv
  rw [deltaMap_lookup]
  by_cases hk : k ∈ orDefault criteria ++ ["overall"]
  · rw [if_pos hk] at hv
    rw [if_pos hk]
    have hvv : deltaStep (mock_score X (orDefault criteria))
        (mock_score Y (orDefault criteria)) k = v := Option.some.inj hv
    have hneg : deltaStep (mock_score Y (orDefault criteria))
        (mock_score X (orDefault criteria)) k
        = -(deltaStep (mock_score X (orDefault criteria))
            (mock_score Y (orDefault criteria)) k) := by
      unfold deltaStep
      rw [← round2_neg]
      congr 1
      ring
    rw [hneg, hvv]
  · rw [if_neg hk] at hv
    exact Option.noConfusion hv

theorem C6_delta_antisymmetry_witness :
    (⟨true, true⟩ : Config).useMock = true ∧
    dlookup "clarity"
        (compare_pages ⟨true, true⟩ (.err "") (.err "") "" "<h1>a</h1>" none
          (some ["clarity"])).delta = some 3 ∧
    dlookup "clarity"
        (compare_pages ⟨true, true⟩ (.err "") (.err "") "<h1>a</h1>" "" none
          (some ["clarity"])).delta = some (-3) :=
  ⟨rfl, by decide,
    C6_delta_antisymmetry ⟨true, true⟩ (.err "") (.err "") (.err "") (.err "")
      "" "<h1>a</h1>" none none (some ["clarity"]) "clarity" 3 rfl (by decide)⟩

/-- C7: the heuristic scorer is deterministic: it is embedded as a pure
function of the HTML string and the criteria list alone (no other inputs,
no state, no side effects), so two calls with identical inputs return
identical results — same per-criterion scores and feedback, same overall,
same notes. -/
theorem C7_mock_deterministic (html : String) (criteria : List String) :
    mock_score html criteria = mock_score html criteria := rfl

/-- C8 (amended): for `<h1>Welcome</h1><title>Home</title>` with default
criteria in heuristic mode, clarity scores 9, credibility 3, cta 6 and
overall 6.0 — but the extracted word count is 2 (the two tokens "welcome"
and "home"), not 1 as the claim states. -/
theorem C8_example :
    (Option.map CritResult.score (alookup "clarity"
        (mock_score "<h1>Welcome</h1><title>Home</title>" DEFAULT_CRITERIA).scores)
      = some 9)
    ∧ (Option.map CritResult.score (alookup "credibility"
        (mock_score "<h1>Welcome</h1><title>Home</title>" DEFAULT_CRITERIA).scores)
      = some 3)
    ∧ (Option.map CritResult.score (alookup "cta"
        (mock_score "<h1>Welcome</h1><title>Home</title>" DEFAULT_CRITERIA).scores)
      = some 6)
    ∧ (mock_score "<h1>Welcome</h1><title>Home</title>" DEFAULT_CRITERIA).overall = 6
    ∧ (extractSignals "<h1>Welcome</h1><title>Home</title>").words = 2 := by
  decide

/-- C8 counterexample: the claim's conjunction fails at its own input
because the extracted word count is 2, not 1. -/
theorem C8_example_cex :
    ¬ ((Option.map CritResult.score (alookup "clarity"
          (mock_score "<h1>Welcome</h1><title>Home</title>" DEFAULT_CRITERIA).scores)
        = some 9)
      ∧ (Option.map CritResult.score (alookup "credibility"
          (mock_score "<h1>Welcome</h1><title>Home</title>" DEFAULT_CRITERIA).scores)
        = some 3)
      ∧ (Option.map CritResult.score (alookup "cta"
          (mock_score "<h1>Welcome</h1><title>Home</title>" DEFAULT_CRITERIA).scores)
        = some 6)
      ∧ (mock_score "<h1>Welcome</h1><title>Home</title>" DEFAULT_CRITERIA).overall = 6
      ∧ (extractSignals "<h1>Welcome</h1><title>Home</title>").words = 1) := by
  decide

/-- C9 (amended): for every HTML string containing no tag span, the text
extractor reports `have_h1` and `have_title` false, its plain text is the
lowercased input verbatim, and `word_count` is the number of
whitespace-separated tokens of that text.  (`have_cta` and `trust_kw_count`
can still be non-trivial, because CTA and trust keywords are detected in the
plain text itself.) -/
theorem C9_no_tags (html : String) (h : hasTagSpan html.toList = false) :
    (extractSignals html).have_h1 = false
    ∧ (extractSignals html).have_title = false
    ∧ (extractSignals html).txt = html.toList.map lcase
    ∧ (extractSignals html).words = countTokens (html.toList.map lcase) := by
  have htxt : stripTags html.toList = html.toList := stripAux_id _ h
  have hh1 : tagSearch ['<', 'h', '1'] ['<', '/', 'h', '1', '>']
      (html.toList.map lcase) = false := by
    cases hx : tagSearch ['<', 'h', '1'] ['<', '/', 'h', '1', '>']
        (html.toList.map lcase) with
    | false => rfl
    | true =>
      exfalso
      have hspan := tagSearch_hasTagSpan 'h' ['1'] ['<', '/', 'h', '1', '>']
        (by decide) _ hx
      rw [hasTagSpan_map, h] at hspan
      simp at hspan
  have hti : tagSearch ['<', 't', 'i', 't', 'l', 'e']
      ['<', '/', 't', 'i', 't', 'l', 'e', '>'] (html.toList.map lcase) = false := by
    cases hx : tagSearch ['<', 't', 'i', 't', 'l', 'e']
        ['<', '/', 't', 'i', 't', 'l', 'e', '>'] (html.toList.map lcase) with
    | false => rfl
    | true =>
      exfalso
      have hspan := tagSearch_hasTagSpan 't' ['i', 't', 'l', 'e']
        ['<', '/', 't', 'i', 't', 'l', 'e', '>'] (by decide) _ hx
      rw [hasTagSpan_map, h] at hspan
      simp at hspan
  refine ⟨?_, ?_, ?_, ?_⟩ <;> simp only [extractSignals]
  · exact hh1
  · exact hti
  · rw [htxt]
  · rw [htxt]

theorem C9_no_tags_witness :
    hasTagSpan "hello world".toList = false ∧
    ((extractSignals "hello world").have_h1 = false
      ∧ (extractSignals "hello world").have_title = false
      ∧ (extractSignals "hello world").txt = "hello world".toList.map lcase
      ∧ (extractSignals "hello world").words
          = countTokens ("hello world".toList.map lcase)) :=
  ⟨by decide, C9_no_tags "hello world" (by decide)⟩

/-- C9 counterexample: `"sign up privacy"` contains no tag span, yet the
extractor reports `have_cta` true (the CTA keyword "sign up" occurs in the
text) and a non-zero trust keyword count ("privacy"), so the claim's
"have_cta false and trust_kw_count zero" part is false. -/
theorem C9_no_tags_cex :
    hasTagSpan "sign up privacy".toList = false ∧
    ¬ ((extractSignals "sign up privacy").have_h1 = false
      ∧ (extractSignals "sign up privacy").have_title = false
      ∧ (extractSignals "sign up privacy").have_cta = false
      ∧ (extractSignals "sign up privacy").trust_kw = 0) := by
  decide

/-- C10: if the caller's criteria list contains the literal string
`"overall"`, the compare endpoint's delta entry for the key `"overall"`
equals the per-criterion score difference of the criterion named
`"overall"` (the loop iterates `criteria + ["overall"]` and prefers
`scores[c]` whenever present), not the difference of the two aggregate
`overall` fields. -/
theorem C10_overall_shadowed (cfg : Config) (outB outA : LLMOutcome)
    (bh ah : String) (url : Option String) (criteria : Option (List String))
    (sb sa : CritResult)
    (hmem : "overall" ∈ orDefault criteria)
    (hb : alookup "overall"
        (compare_pages cfg outB outA bh ah url criteria).before.scores = some sb)
    (ha : alookup "overall"
        (compare_pages cfg outB outA bh ah url criteria).after.scores = some sa) :
    dlookup "overall" (compare_pages cfg outB outA bh ah url criteria).delta
      = some (round2 ((sa.score : ℚ) - (sb.score : ℚ))) := by
  have hd : (compare_pages cfg outB outA bh ah url criteria).delta
      = deltaMap (compare_pages cfg outB outA bh ah url criteria).before
          (compare_pages cfg outB outA bh ah url criteria).after
          (orDefault criteria ++ ["overall"]) := rfl
  rw [hd, deltaMap_lookup, if_pos (List.mem_append_left _ hmem)]
  have e1 : scoreOr (compare_pages cfg outB outA bh ah url criteria).after "overall"
      = (sa.score : ℚ) := by unfold scoreOr; rw [ha]
  have e2 : scoreOr (compare_pages cfg outB outA bh ah url criteria).before "overall"
      = (sb.score : ℚ) := by unfold scoreOr; rw [hb]
  unfold deltaStep
  rw [e1, e2]

theorem C10_overall_shadowed_witness :
    "overall" ∈ orDefault (some ["clarity", "overall"]) ∧
    dlookup "overall"
        (compare_pages ⟨true, true⟩ (.err "") (.err "") "" "<h1>a</h1>" none
          (some ["clarity", "overall"])).delta
      = some (round2 (((⟨5, "OK"⟩ : CritResult).score : ℚ)
          - ((⟨5, "OK"⟩ : CritResult).score : ℚ))) :=
  ⟨by decide,
    C10_overall_shadowed ⟨true, true⟩ (.err "") (.err "") "" "<h1>a</h1>" none
      (some ["clarity", "overall"]) ⟨5, "OK"⟩ ⟨5, "OK"⟩ (by decide) (by decide)
      (by decide)⟩

end Scoring
